import Mathlib

/-!
Verification development for the bittorrent-infrastructure-project sources:
shallow Lean embeddings of the UDP dispatcher (contrib/umio), the DHT
message codec (packages/dht), the UDP tracker request codec
(packages/utracker), the metainfo builder (packages/metainfo), the peer
wire bitfield message (bip_peer) and the disk block types (packages/disk),
with theorems checking the design documents claims against them.

Machine integers of the source (u16, u32, u64, i32, i64, usize) are
modelled as Nat or Int with explicit bounds or reductions modulo two
powers where the source truncates; byte strings are List Nat; fallible
code returns Option or Except.
-/

namespace BT

/-! ## UDP dispatcher (contrib/umio/src/dispatcher.rs)

The Buffer and BufferPool types of umio are not among the given sources;
following the design document they form a grow-on-demand free list whose
pop hands out one buffer (allocating a fresh one when the free list is
empty) and whose push returns one buffer.  For the buffer counting claims
only the number of buffers in each place matters, so the dispatcher state
is abstracted to the number of pooled buffers and the number of queued
outbound datagrams.  Computing with Nat, popping from an empty pool
leaves the count at zero while a fresh buffer materialises in the
borrowers hand, which is exactly the grow-on-demand accounting.
-/

/-- State of DispatchHandler as far as buffer accounting goes: number of
buffers in the buffer pool free list and number of (Buffer, SocketAddr)
entries in the outbound queue. -/
structure DState where
  pool : Nat
  out_queue : Nat
deriving DecidableEq, Repr

/-- Outcome of mio UdpSocket::send_to: Ok(Some n) sent n bytes,
Ok(None) would block, Err is a hard I/O failure. -/
inductive SendOutcome where
  | sent (n : Nat)
  | wouldBlock
  | ioError
deriving DecidableEq, Repr

/-- Translated from DispatchHandler::handle_write (dispatcher.rs lines
63-69): pop the head of the outbound queue if any, call send_to on it and
unwrap the result, then push the buffer back into the pool.  The unwrap
panics when send_to returns Err; the panic is modelled as none. -/
def handle_write (s : DState) (send : SendOutcome) : Option DState :=
  if s.out_queue = 0 then
    some s
  else
    match send with
    | .ioError => none
    | _ => some ⟨s.pool + 1, s.out_queue - 1⟩

/-- Translated from DispatchHandler::handle_read (dispatcher.rs lines
71-81): pop one buffer from the pool (grow-on-demand: popping an empty
pool allocates a fresh buffer, so the Nat count simply saturates at zero),
then receive one datagram into it; the popped buffer travels with the
some result, while on the none result it is an unmoved local that Rust
drops. -/
def handle_read (s : DState) (recv : Option Unit) : DState × Option Unit :=
  (⟨s.pool - 1, s.out_queue⟩, recv)

/-- Translated from the readable branch of Handler::ready (dispatcher.rs
lines 97-109): run handle_read; on none return at once (the popped buffer
has been dropped); on some, run the incoming callback, which through its
Provider may move buffers between the pool and the outbound queue
(parameter cb), then push the borrowed buffer back into the pool. -/
def ready_read (s : DState) (recv : Option Unit) (cb : Nat × Nat → Nat × Nat) : DState :=
  match handle_read s recv with
  | (s1, none) => s1
  | (s1, some _) =>
    let pq := cb (s1.pool, s1.out_queue)
    ⟨pq.1 + 1, pq.2⟩

/-- Translated from Handler::notify / Handler::timeout (dispatcher.rs
lines 112-122): hand a Provider over pool and outbound queue to the
callback and do nothing else. -/
def notify_step (s : DState) (cb : Nat × Nat → Nat × Nat) : DState :=
  let pq := cb (s.pool, s.out_queue)
  ⟨pq.1, pq.2⟩

/-- Total number of buffers held by the pool and the outbound queue (the
callback borrow is empty at event step boundaries). -/
def total (s : DState) : Nat :=
  s.pool + s.out_queue

/-! ## Peer wire bitfield message (bip_peer/src/message/standard.rs) -/

/-- Translated from BitFieldMessage::new (standard.rs lines 40-49): the
byte vector holds total_pieces / 8 zero bytes, plus one when 8 does not
divide total_pieces. -/
def BitFieldMessage.new (total_pieces : Nat) : List Nat :=
  let bytes_needed :=
    if total_pieces % 8 = 0 then
      total_pieces / 8
    else
      total_pieces / 8 + 1
  List.replicate bytes_needed 0

/-! ## Disk memory blocks (packages/disk/src/memory/block.rs) -/

/-- Translated from BlockMetadata (block.rs lines 11-16). -/
structure BlockMetadata where
  info_hash : List Nat
  piece_index : Nat
  block_offset : Nat
  block_length : Nat
deriving DecidableEq, Repr

/-- Translated from Block (block.rs lines 65-68); the Bytes payload is a
byte sequence. -/
structure Block where
  metadata : BlockMetadata
  block_data : List Nat
deriving DecidableEq, Repr

/-- Translated from BlockMut (block.rs lines 105-108); the BytesMut
payload is a byte sequence. -/
structure BlockMut where
  metadata : BlockMetadata
  block_data : List Nat
deriving DecidableEq, Repr

/-- BytesMut::freeze of the bytes crate: converts mutable bytes to
immutable bytes with identical contents. -/
def freezeBytes (b : List Nat) : List Nat := b

/-- Translated from Block::new (block.rs lines 72-74). -/
def Block.new (metadata : BlockMetadata) (block_data : List Nat) : Block :=
  ⟨metadata, block_data⟩

/-- Translated from the From BlockMut impl for Block (block.rs lines
86-90): Block::new(block.metadata(), block.block_data.freeze()). -/
def blockFromBlockMut (block : BlockMut) : Block :=
  Block.new block.metadata (freezeBytes block.block_data)

/-! ## Bencode values and typed accessors

The bencode primitive library (bip_bencode) is not among the given
sources; the design document describes it as a reader and writer of
integers, byte strings, lists and ordered dictionaries whose typed
accessors report a structured error on a missing key or a type mismatch
and whose dictionaries keep keys sorted in ascending byte order.  Keys
and byte strings are byte lists.
-/

/-- Modelled from the spec: a bencoded value (integer, byte string,
list, or dictionary of key-value pairs). -/
inductive BValue where
  | int (n : Int)
  | bytes (bs : List Nat)
  | list (xs : List BValue)
  | dict (kvs : List (List Nat × BValue))

/-- Modelled from the spec: BRefAccess::int yields the integer of an
integer value and nothing otherwise. -/
def BValue.int? : BValue → Option Int
  | .int n => some n
  | _ => none

/-- Modelled from the spec: dictionary lookup by key. -/
def blookup : List (List Nat × BValue) → List Nat → Option BValue
  | [], _ => none
  | (k0, v0) :: rest, k => if k0 = k then some v0 else blookup rest k

/-- Errors of the DHT codec (packages/dht/src/error.rs is not among the
given sources; the variants used by the given message modules are the
lookup and conversion failures raised through BConvert, the kind-specific
validation failure InvalidResponse or InvalidRequest, and
UnsolicitedResponse). -/
inductive DhtError where
  | missingKey (k : List Nat)
  | wrongType (k : List Nat)
  | invalidRequest
  | invalidResponse
  | unsolicitedResponse
deriving DecidableEq, Repr

/-- Modelled from the spec: BConvert::lookup_and_convert_bytes — look a
key up and require a byte string. -/
def lookup_and_convert_bytes (root : List (List Nat × BValue)) (k : List Nat) :
    Except DhtError (List Nat) :=
  match blookup root k with
  | some (.bytes bs) => .ok bs
  | some _ => .error (.wrongType k)
  | none => .error (.missingKey k)

/-- Modelled from the spec: BConvert::lookup_and_convert_int — look a
key up and require an integer. -/
def lookup_and_convert_int (root : List (List Nat × BValue)) (k : List Nat) :
    Except DhtError Int :=
  match blookup root k with
  | some (.int n) => .ok n
  | some _ => .error (.wrongType k)
  | none => .error (.missingKey k)

/-- Modelled from the spec: BConvert::lookup_and_convert_dict — look a
key up and require a dictionary. -/
def lookup_and_convert_dict (root : List (List Nat × BValue)) (k : List Nat) :
    Except DhtError (List (List Nat × BValue)) :=
  match blookup root k with
  | some (.dict kvs) => .ok kvs
  | some _ => .error (.wrongType k)
  | none => .error (.missingKey k)

/-- Modelled from the spec: RequestValidate::validate_node_id — a node
id must be exactly 20 bytes (the error detail string is dropped). -/
def validate_node_id (bs : List Nat) : Except DhtError (List Nat) :=
  if bs.length = 20 then .ok bs else .error .invalidRequest

/-- Modelled from the spec: RequestValidate::validate_info_hash — an
info hash must be exactly 20 bytes. -/
def validate_info_hash (bs : List Nat) : Except DhtError (List Nat) :=
  if bs.length = 20 then .ok bs else .error .invalidRequest

/-- Key "id". -/
def NODE_ID_KEY : List Nat := [105, 100]
/-- Key "info_hash". -/
def INFO_HASH_KEY : List Nat := [105, 110, 102, 111, 95, 104, 97, 115, 104]
/-- Key "token". -/
def TOKEN_KEY : List Nat := [116, 111, 107, 101, 110]
/-- Key "port". -/
def PORT_KEY : List Nat := [112, 111, 114, 116]
/-- Key "implied_port". -/
def IMPLIED_PORT_KEY : List Nat := [105, 109, 112, 108, 105, 101, 100, 95, 112, 111, 114, 116]
/-- Key "t". -/
def TRANSACTION_ID_KEY : List Nat := [116]
/-- Key "y". -/
def MESSAGE_TYPE_KEY : List Nat := [121]
/-- Key "q". -/
def REQUEST_TYPE_KEY : List Nat := [113]
/-- Key "a". -/
def REQUEST_ARGS_KEY : List Nat := [97]
/-- Key "r". -/
def RESPONSE_ARGS_KEY : List Nat := [114]
/-- Query kind string "announce_peer". -/
def ANNOUNCE_PEER_TYPE_KEY : List Nat := [97, 110, 110, 111, 117, 110, 99, 101, 95, 112, 101, 101, 114]

/-! ## DHT announce_peer messages (packages/dht/src/message/announce_peer.rs) -/

/-- Translated from ConnectPort (announce_peer.rs lines 17-20). -/
inductive ConnectPort where
  | Implied
  | Explicit (n : Nat)
deriving DecidableEq, Repr

/-- Translated from AnnouncePeerRequest (announce_peer.rs lines 24-30). -/
structure AnnouncePeerRequest where
  trans_id : List Nat
  node_id : List Nat
  info_hash : List Nat
  token : List Nat
  port : ConnectPort
deriving DecidableEq, Repr

/-- Translated from AnnouncePeerRequest::from_parts (announce_peer.rs
lines 55-86).  The port lookup result is bound before the implied_port
match and only unwrapped in the non-implied branch; implied_port counts
as implied exactly when it is present, of integer type and non-zero (the
guard Some(Some(n)) if n != 0); the explicit port is the i64 value taken
through unsigned_abs() as u16 (absolute value reduced modulo 2^16). -/
def AnnouncePeerRequest.from_parts (rqst_root : List (List Nat × BValue))
    (trans_id : List Nat) : Except DhtError AnnouncePeerRequest := do
  let node_id_bytes ← lookup_and_convert_bytes rqst_root NODE_ID_KEY
  let node_id ← validate_node_id node_id_bytes
  let info_hash_bytes ← lookup_and_convert_bytes rqst_root INFO_HASH_KEY
  let info_hash ← validate_info_hash info_hash_bytes
  let token ← lookup_and_convert_bytes rqst_root TOKEN_KEY
  let port := lookup_and_convert_int rqst_root PORT_KEY
  let response_port ←
    match (blookup rqst_root IMPLIED_PORT_KEY).map BValue.int? with
    | some (some n) =>
      if n ≠ 0 then
        Except.ok ConnectPort.Implied
      else
        port.map fun p => ConnectPort.Explicit (p.natAbs % 65536)
    | _ => port.map fun p => ConnectPort.Explicit (p.natAbs % 65536)
  return ⟨trans_id, node_id, info_hash, token, response_port⟩

/-- Lexicographic strict order on byte strings (ascending byte order of
bencode dictionary keys). -/
def byteLexLt : List Nat → List Nat → Bool
  | [], [] => false
  | [], _ :: _ => true
  | _ :: _, [] => false
  | a :: as, b :: bs =>
    if a < b then true
    else if b < a then false
    else byteLexLt as bs

/-- Insert one key-value pair into a key-sorted association list. -/
def insert_sorted (k : List Nat) (v : BValue) :
    List (List Nat × BValue) → List (List Nat × BValue)
  | [] => [(k, v)]
  | (k0, v0) :: rest =>
    if byteLexLt k k0 then (k, v) :: (k0, v0) :: rest
    else (k0, v0) :: insert_sorted k v rest

/-- Modelled from the spec: the ben_map builder of the bencode library
collects its pairs into a dictionary that keeps keys in ascending byte
order (the design document: dictionaries preserve sorted key order on
re-encode), here by sorted insertion. -/
def ben_map (pairs : List (List Nat × BValue)) : BValue :=
  .dict (pairs.foldl (fun acc kv => insert_sorted kv.1 kv.2 acc) [])

/-- Translated from the (displayed_port, implied_value) match inside
AnnouncePeerRequest::encode (announce_peer.rs lines 117-120), first
component. -/
def displayed_port : ConnectPort → Nat
  | .Implied => 0
  | .Explicit n => n

/-- Translated from the (displayed_port, implied_value) match inside
AnnouncePeerRequest::encode (announce_peer.rs lines 117-120), second
component. -/
def implied_value : ConnectPort → Int
  | .Implied => 1
  | .Explicit _ => 0

/-- Translated from AnnouncePeerRequest::encode (announce_peer.rs lines
113-137): a ben_map with keys t, y, q and a, whose a value is a ben_map
with keys id, implied_port, info_hash, port and token; the result is the
bencoded dictionary tree (byte serialisation writes dictionary entries in
list order, so key order claims are stated on the tree). -/
def AnnouncePeerRequest.encode (r : AnnouncePeerRequest) : BValue :=
  ben_map [
    (TRANSACTION_ID_KEY, .bytes r.trans_id),
    (MESSAGE_TYPE_KEY, .bytes REQUEST_TYPE_KEY),
    (REQUEST_TYPE_KEY, .bytes ANNOUNCE_PEER_TYPE_KEY),
    (REQUEST_ARGS_KEY, ben_map [
      (NODE_ID_KEY, .bytes r.node_id),
      (IMPLIED_PORT_KEY, .int (implied_value r.port)),
      (INFO_HASH_KEY, .bytes r.info_hash),
      (PORT_KEY, .int (displayed_port r.port)),
      (TOKEN_KEY, .bytes r.token)])]

/-- Every dictionary in a bencoded tree has its keys in strictly
ascending byte order, at every nesting level. -/
inductive AscKeys : BValue → Prop where
  | int : ∀ n, AscKeys (.int n)
  | bytes : ∀ bs, AscKeys (.bytes bs)
  | list : ∀ xs, (∀ x ∈ xs, AscKeys x) → AscKeys (.list xs)
  | dict : ∀ kvs, List.Chain' (fun a b => byteLexLt a b = true) (kvs.map Prod.fst) →
      (∀ kv ∈ kvs, AscKeys kv.2) → AscKeys (.dict kvs)

/-- Entries of a dictionary value (empty for non-dictionaries). -/
def dict_entries : BValue → List (List Nat × BValue)
  | .dict kvs => kvs
  | _ => []

/-- Entries of the arguments dictionary (key a) of an encoded request. -/
def args_entries (v : BValue) : List (List Nat × BValue) :=
  match blookup (dict_entries v) REQUEST_ARGS_KEY with
  | some a => dict_entries a
  | none => []

/-! ## DHT responses (packages/dht/src/message/response.rs)

Of the kind-specific response parsers only AnnouncePeerResponse is among
the given sources; PingResponse, FindNodeResponse and GetPeersResponse
are modelled from the spec (per-kind argument sets and validation rules
of the design document).
-/

/-- Translated from AnnouncePeerResponse (announce_peer.rs lines 141-144). -/
structure AnnouncePeerResponse where
  trans_id : List Nat
  node_id : List Nat
deriving DecidableEq, Repr

/-- Translated from AnnouncePeerResponse::from_parts (announce_peer.rs
lines 157-170): look up id and validate it as a 20-byte node id. -/
def AnnouncePeerResponse.from_parts (rqst_root : List (List Nat × BValue))
    (trans_id : List Nat) : Except DhtError AnnouncePeerResponse := do
  let node_id_bytes ← lookup_and_convert_bytes rqst_root NODE_ID_KEY
  let node_id ← validate_node_id node_id_bytes
  return ⟨trans_id, node_id⟩

/-- Modelled from the spec: a ping response carries an id. -/
structure PingResponse where
  trans_id : List Nat
  node_id : List Nat
deriving DecidableEq, Repr

/-- Modelled from the spec: ping response parsing — {id: NodeId},
validated to 20 bytes. -/
def PingResponse.from_parts (rqst_root : List (List Nat × BValue))
    (trans_id : List Nat) : Except DhtError PingResponse := do
  let node_id_bytes ← lookup_and_convert_bytes rqst_root NODE_ID_KEY
  let node_id ← validate_node_id node_id_bytes
  return ⟨trans_id, node_id⟩

/-- Modelled from the spec: a find_node response carries an id and a
compact node list. -/
structure FindNodeResponse where
  trans_id : List Nat
  node_id : List Nat
  nodes : List Nat
deriving DecidableEq, Repr

/-- Modelled from the spec: find_node response parsing — {id, nodes};
nodes must be a multiple of 26 bytes. -/
def FindNodeResponse.from_parts (rqst_root : List (List Nat × BValue))
    (trans_id : List Nat) : Except DhtError FindNodeResponse := do
  let node_id_bytes ← lookup_and_convert_bytes rqst_root NODE_ID_KEY
  let node_id ← validate_node_id node_id_bytes
  let nodes ← lookup_and_convert_bytes rqst_root [110, 111, 100, 101, 115]
  if nodes.length % 26 = 0 then
    return ⟨trans_id, node_id, nodes⟩
  else
    throw .invalidResponse

/-- Modelled from the spec: a get_peers response carries an id, a token
and either compact values or compact nodes. -/
structure GetPeersResponse where
  trans_id : List Nat
  node_id : List Nat
  token : List Nat
  values : Option (List (List Nat))
  nodes : Option (List Nat)
deriving DecidableEq, Repr

/-- Modelled from the spec: get_peers response parsing — {id, token} and
either values (a list of 6-byte strings) or nodes (a multiple of 26
bytes). -/
def GetPeersResponse.from_parts (rqst_root : List (List Nat × BValue))
    (trans_id : List Nat) : Except DhtError GetPeersResponse := do
  let node_id_bytes ← lookup_and_convert_bytes rqst_root NODE_ID_KEY
  let node_id ← validate_node_id node_id_bytes
  let token ← lookup_and_convert_bytes rqst_root TOKEN_KEY
  match blookup rqst_root [118, 97, 108, 117, 101, 115] with
  | some (.list xs) =>
    let vals ← xs.mapM fun x =>
      match x with
      | .bytes b => if b.length = 6 then Except.ok b else throw DhtError.invalidResponse
      | _ => throw DhtError.invalidResponse
    return ⟨trans_id, node_id, token, some vals, none⟩
  | _ =>
    let nodes ← lookup_and_convert_bytes rqst_root [110, 111, 100, 101, 115]
    if nodes.length % 26 = 0 then
      return ⟨trans_id, node_id, token, none, some nodes⟩
    else
      throw .invalidResponse

/-- Translated from ExpectedResponse (response.rs lines 99-107). -/
inductive ExpectedResponse where
  | Ping
  | FindNode
  | GetPeers
  | AnnouncePeer
  | GetData
  | PutData
  | None
deriving DecidableEq, Repr

/-- Translated from ResponseType (response.rs lines 111-121). -/
inductive ResponseType where
  | Ping (r : PingResponse)
  | FindNode (r : FindNodeResponse)
  | GetPeers (r : GetPeersResponse)
  | AnnouncePeer (r : AnnouncePeerResponse)
deriving DecidableEq, Repr

/-- Translated from ResponseType::from_parts (response.rs lines 133-169):
look the r key up as a dictionary, then dispatch on the expected response
kind; GetData and PutData hit unimplemented (a panic, modelled as none)
and an expected kind of None yields the UnsolicitedResponse error. -/
def ResponseType.from_parts (root : List (List Nat × BValue)) (trans_id : List Nat)
    (rsp_type : ExpectedResponse) : Option (Except DhtError ResponseType) :=
  match lookup_and_convert_dict root RESPONSE_ARGS_KEY with
  | .error e => some (.error e)
  | .ok rqst_root =>
    match rsp_type with
    | .Ping => some ((PingResponse.from_parts rqst_root trans_id).map .Ping)
    | .FindNode => some ((FindNodeResponse.from_parts rqst_root trans_id).map .FindNode)
    | .GetPeers => some ((GetPeersResponse.from_parts rqst_root trans_id).map .GetPeers)
    | .AnnouncePeer => some ((AnnouncePeerResponse.from_parts rqst_root trans_id).map .AnnouncePeer)
    | .GetData => none
    | .PutData => none
    | .None => some (.error .unsolicitedResponse)

/-- A 20-byte all-zero identifier. -/
def zeroId : List Nat := List.replicate 20 0

/-- Arguments dictionary of an announce_peer query whose implied_port key
is absent and whose port key holds 65536 (one past the u16 range). -/
def overflowPortArgs : List (List Nat × BValue) :=
  [(NODE_ID_KEY, .bytes zeroId),
   (INFO_HASH_KEY, .bytes zeroId),
   (TOKEN_KEY, .bytes [116]),
   (PORT_KEY, .int 65536)]

/-! ## Metainfo builder file layout (packages/metainfo/src/builder/mod.rs) -/

/-- Shape of the file layout keys that build_with_accessor inserts into
the info dictionary: either a length key plus a name key (single file) or
a name key plus a files list of (length, path components) entries. -/
inductive InfoFileMode where
  | single (length : Nat) (name : List Nat)
  | multi (name : List Nat) (files : List (Nat × List (List Nat)))
deriving DecidableEq, Repr

/-- Translated from the match on (access_directory, files_info.len() > 1)
inside build_with_accessor (builder/mod.rs lines 421-489); path components
and names are byte strings.  With no directory and at most one file the
source indexes files_info[0], which panics on an empty list (none), and
otherwise concatenates the path components of the one file into the name.
The rest of build_with_accessor (piece hashing, piece length and pieces
keys) does not touch these keys. -/
def build_info_mode (access_directory : Option (List Nat))
    (files_info : List (Nat × List (List Nat))) : Option InfoFileMode :=
  match access_directory with
  | some directory => some (.multi directory files_info)
  | none =>
    if 1 < files_info.length then
      some (.multi [] files_info)
    else
      match files_info with
      | [] => none
      | f :: _ => some (.single f.1 f.2.flatten)

/-! ## Metainfo piece length (packages/metainfo/src/builder/mod.rs) -/

/-- Maximum piece length across the board (builder/mod.rs line 29),
equal to 2^24. -/
def ALL_OPT_MAX_PIECE_LENGTH : Nat := 16 * 1024 * 1024

/-- Target pieces size for OptBalanced (builder/mod.rs line 31). -/
def BALANCED_MAX_PIECES_SIZE : Nat := 40000

/-- Minimum piece length for OptBalanced (builder/mod.rs line 32). -/
def BALANCED_MIN_PIECE_LENGTH : Nat := 512 * 1024

/-- Target pieces size for OptFileSize (builder/mod.rs line 34). -/
def FILE_SIZE_MAX_PIECES_SIZE : Nat := 20000

/-- Minimum piece length for OptFileSize (builder/mod.rs line 35). -/
def FILE_SIZE_MIN_PIECE_LENGTH : Nat := 1024 * 1024

/-- Target pieces size for OptTransfer (builder/mod.rs line 37). -/
def TRANSFER_MAX_PIECES_SIZE : Nat := 60000

/-- Minimum piece length for OptTransfer (builder/mod.rs line 38). -/
def TRANSFER_MIN_PIECE_LENGTH : Nat := 1024

/-- Length of a SHA-1 hash in bytes (util::sha::SHA_HASH_LEN). -/
def SHA_HASH_LEN : Nat := 20

/-- Translated from PieceLength (builder/mod.rs lines 42-51). -/
inductive PieceLength where
  | OptBalanced
  | OptFileSize
  | OptTransfer
  | Custom (len : Nat)
deriving DecidableEq, Repr

/-- Ceiling of the base two logarithm by repeated halving; the fuel is
an upper bound on the argument, which strictly shrinks at every step. -/
def clog2fuel : Nat → Nat → Nat
  | 0, _ => 0
  | fuel + 1, n => if n ≤ 1 then 0 else clog2fuel fuel ((n + 1) / 2) + 1

/-- Ceiling of the base two logarithm on the u64 domain: 64 halvings
cover every n up to 2^64, which is every value the source (a u64
computation) can produce. -/
def clog2 (n : Nat) : Nat := clog2fuel 64 n

/-- u64::next_power_of_two of the Rust standard library: the least power
of two greater than or equal to n (1 for n = 0); overflow does not occur
at the piece lengths involved. -/
def next_power_of_two (n : Nat) : Nat := 2 ^ clog2 n

/-- The power-of-two piece length before clamping, translated from the
first half of calculate_piece_length (builder/mod.rs lines 516-532): the
source computes (total_file_size as f64) / (max_pieces_size / 20 as f64)
+ 0.5 in f64 and truncates to u64; the model computes the same
truncate-after-adding-one-half exactly over the rationals, as
(2 * size + np) / (2 * np) in integer division with np =
max_pieces_size / 20, and then rounds up to the next power of two. -/
def pot_piece_length (total_file_size max_pieces_size : Nat) : Nat :=
  next_power_of_two ((2 * total_file_size + max_pieces_size / SHA_HASH_LEN) /
    (2 * (max_pieces_size / SHA_HASH_LEN)))

/-- Translated from the clamping match of calculate_piece_length
(builder/mod.rs lines 535-542): take the power-of-two length when it
lies strictly between the minimum and the 16 MiB cap, the minimum when
it does not exceed the minimum, and the cap otherwise. -/
def calculate_piece_length (total_file_size max_pieces_size min_piece_length : Nat) : Nat :=
  let pot := pot_piece_length total_file_size max_pieces_size
  if pot > min_piece_length then
    if pot < ALL_OPT_MAX_PIECE_LENGTH then pot else ALL_OPT_MAX_PIECE_LENGTH
  else min_piece_length

/-- Translated from determine_piece_length (builder/mod.rs lines
504-513). -/
def determine_piece_length (total_file_size : Nat) : PieceLength → Nat
  | .Custom len => len
  | .OptBalanced =>
    calculate_piece_length total_file_size BALANCED_MAX_PIECES_SIZE BALANCED_MIN_PIECE_LENGTH
  | .OptFileSize =>
    calculate_piece_length total_file_size FILE_SIZE_MAX_PIECES_SIZE FILE_SIZE_MIN_PIECE_LENGTH
  | .OptTransfer =>
    calculate_piece_length total_file_size TRANSFER_MAX_PIECES_SIZE TRANSFER_MIN_PIECE_LENGTH

/-- Ceiling division, for stating the number of pieces of a file. -/
def ceil_div (a b : Nat) : Nat := (a + b - 1) / b

/-- The strategy minimum piece length of the design document (512 KiB,
1 MiB and 1 KiB for OptBalanced, OptFileSize and OptTransfer). -/
def strategy_min : PieceLength → Nat
  | .OptBalanced => BALANCED_MIN_PIECE_LENGTH
  | .OptFileSize => FILE_SIZE_MIN_PIECE_LENGTH
  | .OptTransfer => TRANSFER_MIN_PIECE_LENGTH
  | .Custom _ => 0

/-- The strategy target pieces size of the design document (40000, 20000
and 60000 for OptBalanced, OptFileSize and OptTransfer). -/
def strategy_max_pieces : PieceLength → Nat
  | .OptBalanced => BALANCED_MAX_PIECES_SIZE
  | .OptFileSize => FILE_SIZE_MAX_PIECES_SIZE
  | .OptTransfer => TRANSFER_MAX_PIECES_SIZE
  | .Custom _ => 0

/-! ## UDP tracker requests (packages/utracker/src/request.rs)

The request framing and dispatch are translated from request.rs; the
action id constants live in the crate root and the announce and scrape
bodies in announce.rs and scrape.rs, which are not among the given
sources, so those are modelled from the spec (the framing table of the
design document).  Byte sequences are big-endian.
-/

/-- Big-endian bytes of n, w bytes wide (n taken modulo 256^w). -/
def bytesBE : Nat → Nat → List Nat
  | 0, _ => []
  | w + 1, n => n / 256 ^ w :: bytesBE w (n % 256 ^ w)

/-- Read a w-byte big-endian integer, returning it with the rest of the
input; none when the input is too short. -/
def readBE : Nat → List Nat → Option (Nat × List Nat)
  | 0, bs => some (0, bs)
  | _ + 1, [] => none
  | w + 1, b :: bs => (readBE w bs).map fun vr => (b * 256 ^ w + vr.1, vr.2)

/-- Take exactly n bytes from the input, returning them with the rest;
none when the input is too short. -/
def takeN (n : Nat) (bs : List Nat) : Option (List Nat × List Nat) :=
  if n ≤ bs.length then some (bs.take n, bs.drop n) else none

/-- Two's-complement big-endian encoding of an i32. -/
def i32be (n : Int) : List Nat := bytesBE 4 ((n % (2 ^ 32 : Int)).toNat)

/-- Two's-complement value of a u32 read back as an i32. -/
def i32val (v : Nat) : Int :=
  if v < 2 ^ 31 then (v : Int) else (v : Int) - 2 ^ 32

/-- Global connection id for connect requests (request.rs line 20). -/
def CONNECT_ID_PROTOCOL_ID : Nat := 0x041727101980

/-- Modelled from the spec: action id of a connect request. -/
def CONNECT_ACTION_ID : Nat := 0

/-- Modelled from the spec: action id of an IPv4 announce request. -/
def ANNOUNCE_IPV4_ACTION_ID : Nat := 1

/-- Modelled from the spec: action id of a scrape request. -/
def SCRAPE_ACTION_ID : Nat := 2

/-- Modelled from the spec: action id of an IPv6 announce request. -/
def ANNOUNCE_IPV6_ACTION_ID : Nat := 4

/-- Modelled from the spec: announce event (0 none, 1 completed,
2 started, 3 stopped). -/
inductive AnnounceEvent where
  | None
  | Completed
  | Started
  | Stopped
deriving DecidableEq, Repr

/-- Wire value of an announce event. -/
def AnnounceEvent.event_id : AnnounceEvent → Nat
  | .None => 0
  | .Completed => 1
  | .Started => 2
  | .Stopped => 3

/-- Announce event from its wire value; none for an unknown value. -/
def event_from_id (v : Nat) : Option AnnounceEvent :=
  if v = 0 then some .None
  else if v = 1 then some .Completed
  else if v = 2 then some .Started
  else if v = 3 then some .Stopped
  else none

/-- Source address family with the raw address bytes (4 for IPv4, 16 for
IPv6). -/
inductive SourceIp where
  | V4 (ip : List Nat)
  | V6 (ip : List Nat)
deriving DecidableEq, Repr

/-- Whether the source address is IPv4 (SocketAddr::is_ipv4). -/
def SourceIp.is_ipv4 : SourceIp → Bool
  | .V4 _ => true
  | .V6 _ => false

/-- Raw address bytes of the source address. -/
def SourceIp.ip_bytes : SourceIp → List Nat
  | .V4 ip => ip
  | .V6 ip => ip

/-- Modelled from the spec: an announce request body — info_hash(20),
peer_id(20), downloaded(u64), left(u64), uploaded(u64), event(u32),
ip, key(u32), num_want(i32), port(u16); ip is 4 bytes under action 1 and
16 bytes under action 4. -/
structure AnnounceRequest where
  info_hash : List Nat
  peer_id : List Nat
  downloaded : Nat
  left : Nat
  uploaded : Nat
  event : AnnounceEvent
  source_ip : SourceIp
  key : Nat
  num_want : Int
  port : Nat
deriving DecidableEq, Repr

/-- Field bounds making an AnnounceRequest representable in the source
types (20-byte hashes, unsigned 64/32/16-bit counters, signed 32-bit
num_want, address length by family). -/
def AnnounceRequest.WF (r : AnnounceRequest) : Prop :=
  r.info_hash.length = 20 ∧ r.peer_id.length = 20 ∧ r.downloaded < 2 ^ 64 ∧
    r.left < 2 ^ 64 ∧ r.uploaded < 2 ^ 64 ∧ r.key < 2 ^ 32 ∧
    -(2 ^ 31) ≤ r.num_want ∧ r.num_want < 2 ^ 31 ∧ r.port < 2 ^ 16 ∧
    (match r.source_ip with
     | .V4 ip => ip.length = 4
     | .V6 ip => ip.length = 16)

/-- Modelled from the spec: AnnounceRequest::write_bytes writes the body
fields in framing order. -/
def AnnounceRequest.write_bytes (r : AnnounceRequest) : List Nat :=
  r.info_hash ++ r.peer_id ++ bytesBE 8 r.downloaded ++ bytesBE 8 r.left ++
    bytesBE 8 r.uploaded ++ bytesBE 4 r.event.event_id ++ r.source_ip.ip_bytes ++
    bytesBE 4 r.key ++ i32be r.num_want ++ bytesBE 2 r.port

/-- Modelled from the spec: AnnounceRequest::from_bytes_v4 parses the
body with a 4-byte ip. -/
def AnnounceRequest.from_bytes_v4 (bs : List Nat) : Option (AnnounceRequest × List Nat) := do
  let (info_hash, bs) ← takeN 20 bs
  let (peer_id, bs) ← takeN 20 bs
  let (downloaded, bs) ← readBE 8 bs
  let (left, bs) ← readBE 8 bs
  let (uploaded, bs) ← readBE 8 bs
  let (event_id, bs) ← readBE 4 bs
  let event ← event_from_id event_id
  let (ip, bs) ← takeN 4 bs
  let (key, bs) ← readBE 4 bs
  let (num_want, bs) ← readBE 4 bs
  let (port, bs) ← readBE 2 bs
  some (⟨info_hash, peer_id, downloaded, left, uploaded, event, .V4 ip, key,
    i32val num_want, port⟩, bs)

/-- Modelled from the spec: AnnounceRequest::from_bytes_v6 parses the
body with a 16-byte ip. -/
def AnnounceRequest.from_bytes_v6 (bs : List Nat) : Option (AnnounceRequest × List Nat) := do
  let (info_hash, bs) ← takeN 20 bs
  let (peer_id, bs) ← takeN 20 bs
  let (downloaded, bs) ← readBE 8 bs
  let (left, bs) ← readBE 8 bs
  let (uploaded, bs) ← readBE 8 bs
  let (event_id, bs) ← readBE 4 bs
  let event ← event_from_id event_id
  let (ip, bs) ← takeN 16 bs
  let (key, bs) ← readBE 4 bs
  let (num_want, bs) ← readBE 4 bs
  let (port, bs) ← readBE 2 bs
  some (⟨info_hash, peer_id, downloaded, left, uploaded, event, .V6 ip, key,
    i32val num_want, port⟩, bs)

/-- Modelled from the spec: a scrape request body, one or more 20-byte
info hashes. -/
structure ScrapeRequest where
  hashes : List (List Nat)
deriving DecidableEq, Repr

/-- A scrape request carries at least one hash and every hash is
20 bytes. -/
def ScrapeRequest.WF (r : ScrapeRequest) : Prop :=
  r.hashes ≠ [] ∧ ∀ h ∈ r.hashes, h.length = 20

/-- Modelled from the spec: ScrapeRequest::write_bytes concatenates the
hashes. -/
def ScrapeRequest.write_bytes (r : ScrapeRequest) : List Nat :=
  r.hashes.flatten

/-- Split a prefix of full 20-byte chunks off the input (the many1 of
take(20) with its unconsumed remainder). -/
def parse_hashes (bs : List Nat) : List (List Nat) × List Nat :=
  if h : 20 ≤ bs.length then
    let tail := parse_hashes (bs.drop 20)
    (bs.take 20 :: tail.1, tail.2)
  else
    ([], bs)
termination_by bs.length
decreasing_by simp only [List.length_drop]; omega

/-- Modelled from the spec: ScrapeRequest::from_bytes parses one or more
20-byte info hashes (none when the input holds no full hash). -/
def ScrapeRequest.from_bytes (bs : List Nat) : Option (ScrapeRequest × List Nat) :=
  match parse_hashes bs with
  | ([], _) => none
  | (h :: t, rest) => some (⟨h :: t⟩, rest)

/-- Translated from RequestType (request.rs lines 25-29). -/
inductive RequestType where
  | Connect
  | Announce (req : AnnounceRequest)
  | Scrape (req : ScrapeRequest)
deriving DecidableEq, Repr

/-- Translated from TrackerRequest (request.rs lines 46-53). -/
structure TrackerRequest where
  connection_id : Nat
  transaction_id : Nat
  request_type : RequestType
deriving DecidableEq, Repr

/-- A TrackerRequest is representable in the source types: u64
connection id, u32 transaction id, and a well-formed body. -/
def TrackerRequest.WF (r : TrackerRequest) : Prop :=
  r.connection_id < 2 ^ 64 ∧ r.transaction_id < 2 ^ 32 ∧
    (match r.request_type with
     | .Connect => True
     | .Announce req => req.WF
     | .Scrape req => req.WF)

/-- Translated from TrackerRequest::write_bytes (request.rs lines
82-116): connection id, then the action id chosen by the request type
(announce picks v4 or v6 by the source ip family), then the transaction
id, then the body. -/
def TrackerRequest.write_bytes (r : TrackerRequest) : List Nat :=
  bytesBE 8 r.connection_id ++
    match r.request_type with
    | .Connect => bytesBE 4 CONNECT_ACTION_ID ++ bytesBE 4 r.transaction_id
    | .Announce req =>
      bytesBE 4 (if req.source_ip.is_ipv4 then ANNOUNCE_IPV4_ACTION_ID
        else ANNOUNCE_IPV6_ACTION_ID) ++
        bytesBE 4 r.transaction_id ++ req.write_bytes
    | .Scrape req =>
      bytesBE 4 SCRAPE_ACTION_ID ++ bytesBE 4 r.transaction_id ++ req.write_bytes

/-- Translated from parse_request (request.rs lines 150-184): read
connection id, action id and transaction id, then match: the connect arm
requires the protocol-magic connection id together with action 0, the
announce v4, scrape and announce v6 arms accept any connection id under
actions 1, 2 and 4, and everything else is a parse error. -/
def parse_request (bytes : List Nat) : Option (TrackerRequest × List Nat) :=
  match readBE 8 bytes with
  | none => none
  | some (connection_id, bs1) =>
    match readBE 4 bs1 with
    | none => none
    | some (action_id, bs2) =>
      match readBE 4 bs2 with
      | none => none
      | some (transaction_id, bs3) =>
        if connection_id = CONNECT_ID_PROTOCOL_ID ∧ action_id = CONNECT_ACTION_ID then
          some (⟨CONNECT_ID_PROTOCOL_ID, transaction_id, .Connect⟩, bs3)
        else if action_id = ANNOUNCE_IPV4_ACTION_ID then
          match AnnounceRequest.from_bytes_v4 bs3 with
          | none => none
          | some (ann_req, rest) =>
            some (⟨connection_id, transaction_id, .Announce ann_req⟩, rest)
        else if action_id = SCRAPE_ACTION_ID then
          match ScrapeRequest.from_bytes bs3 with
          | none => none
          | some (scr_req, rest) =>
            some (⟨connection_id, transaction_id, .Scrape scr_req⟩, rest)
        else if action_id = ANNOUNCE_IPV6_ACTION_ID then
          match AnnounceRequest.from_bytes_v6 bs3 with
          | none => none
          | some (ann_req, rest) =>
            some (⟨connection_id, transaction_id, .Announce ann_req⟩, rest)
        else none

/-- Translated from TrackerRequest::from_bytes (request.rs lines 71-73). -/
def TrackerRequest.from_bytes (bytes : List Nat) : Option (TrackerRequest × List Nat) :=
  parse_request bytes

end BT

namespace BT

/-! ## Theorems -/

/-- Unfolding lemma for total on a literal dispatcher state. -/
theorem total_mk (p q : Nat) : total ⟨p, q⟩ = p + q := rfl

/-- Unfolding lemma for the pool projection on a literal dispatcher state. -/
theorem pool_mk (p q : Nat) : (⟨p, q⟩ : DState).pool = p := rfl

/-- Claim C1 counterexample: with one queued datagram and a socket send
that fails with an I/O error, handle_write panics (the unwrap on send_to),
so it neither returns nor puts the dequeued buffer back into the pool. -/
theorem handle_write_io_error_panics :
    handle_write ⟨0, 1⟩ .ioError = none := rfl

/-- Claim C1 (amended): with a non-empty outbound queue, handle_write
dequeues the head and returns its buffer to the pool whenever send_to
does not fail hard (success or would-block); on a hard I/O error the
unwrap panics and the buffer is not returned. -/
theorem handle_write_returns_buffer (s : DState) (send : SendOutcome)
    (hq : s.out_queue ≠ 0) :
    (send ≠ .ioError → handle_write s send = some ⟨s.pool + 1, s.out_queue - 1⟩) ∧
      (send = .ioError → handle_write s send = none) := by
  constructor
  · intro hsend
    cases send with
    | sent n => simp [handle_write, hq]
    | wouldBlock => simp [handle_write, hq]
    | ioError => exact absurd rfl hsend
  · intro hsend
    subst hsend
    simp [handle_write, hq]

/-- Claim C1 witness: concrete run of the amended statement, hypotheses
discharged at a would-block send and at a failing send. -/
theorem handle_write_returns_buffer_witness :
    handle_write ⟨3, 1⟩ .wouldBlock = some ⟨4, 0⟩ ∧
      handle_write ⟨3, 1⟩ .ioError = none :=
  ⟨(handle_write_returns_buffer ⟨3, 1⟩ .wouldBlock (by decide)).1 (by decide),
    (handle_write_returns_buffer ⟨3, 1⟩ .ioError (by decide)).2 rfl⟩

/-- Claim C2 counterexample: a read-ready event on which the socket
yields no datagram destroys the buffer that was popped from the pool:
from a state with one pooled buffer and an empty queue the dispatcher
reaches the empty state, the pool is not left unchanged and the buffer
total drops from one to zero. -/
theorem ready_read_no_datagram_loses_buffer :
    ready_read ⟨1, 0⟩ none (fun pq => pq) = ⟨0, 0⟩ ∧
      total (ready_read ⟨1, 0⟩ none (fun pq => pq)) ≠ total ⟨1, 0⟩ := by
  constructor
  · rfl
  · decide

/-- Claim C2 (amended): with a callback that conserves buffers between
pool and outbound queue, the buffer total is constant across write-ready
steps whose send does not fail hard, across notify and timeout steps, and
across read-ready steps that yield a datagram from a non-empty pool; a
read-ready on an empty pool that yields a datagram grows the total by the
one freshly allocated buffer, a read-ready with no datagram discards the
popped buffer, shrinking a non-empty pool by one, and leaves an empty
pool unchanged (the fresh buffer is allocated and at once dropped). -/
theorem dispatcher_buffer_accounting (s : DState) (cb : Nat × Nat → Nat × Nat)
    (send : SendOutcome)
    (hcb : ∀ pq, (cb pq).1 + (cb pq).2 = pq.1 + pq.2) :
    (send ≠ .ioError → ∀ s2, handle_write s send = some s2 → total s2 = total s) ∧
      (0 < s.pool → total (ready_read s (some ()) cb) = total s) ∧
      (s.pool = 0 → total (ready_read s (some ()) cb) = total s + 1) ∧
      (0 < s.pool → total (ready_read s none cb) = total s - 1 ∧
        (ready_read s none cb).pool = s.pool - 1) ∧
      (s.pool = 0 → ready_read s none cb = s) ∧
      total (notify_step s cb) = total s := by
  obtain ⟨p, q⟩ := s
  refine ⟨?_, ?_, ?_, ?_, ?_, ?_⟩
  · intro hsend s2 h2
    by_cases hq : q = 0
    · subst hq
      simp [handle_write] at h2
      simp [← h2]
    · cases send with
      | sent n =>
        simp [handle_write, hq] at h2
        simp [← h2, total]
        omega
      | wouldBlock =>
        simp [handle_write, hq] at h2
        simp [← h2, total]
        omega
      | ioError => exact absurd rfl hsend
  · intro hp
    rw [pool_mk] at hp
    simp [ready_read, handle_read, total_mk]
    have := hcb (p - 1, q)
    omega
  · intro hp
    subst hp
    simp [ready_read, handle_read, total_mk]
    have := hcb (0, q)
    omega
  · intro hp
    rw [pool_mk] at hp
    simp [ready_read, handle_read, total_mk, pool_mk]
    omega
  · intro hp
    subst hp
    simp [ready_read, handle_read]
  · simp [notify_step, total_mk]
    have := hcb (p, q)
    omega

/-- Claim C2 witness: concrete runs of the amended statement with the
identity callback, hypotheses discharged. -/
theorem dispatcher_buffer_accounting_witness :
    total (DState.mk 2 1) = total ⟨1, 2⟩ ∧
      total (ready_read ⟨1, 2⟩ (some ()) (fun pq => pq)) = total ⟨1, 2⟩ ∧
      total (ready_read ⟨0, 2⟩ (some ()) (fun pq => pq)) = total ⟨0, 2⟩ + 1 ∧
      total (ready_read ⟨1, 2⟩ none (fun pq => pq)) = total ⟨1, 2⟩ - 1 ∧
      ready_read ⟨0, 2⟩ none (fun pq => pq) = ⟨0, 2⟩ ∧
      total (notify_step ⟨1, 2⟩ (fun pq => pq)) = total ⟨1, 2⟩ :=
  ⟨(dispatcher_buffer_accounting ⟨1, 2⟩ (fun pq => pq) (.sent 4) (fun _ => rfl)).1
      (by decide) ⟨2, 1⟩ rfl,
    (dispatcher_buffer_accounting ⟨1, 2⟩ (fun pq => pq) (.sent 4) (fun _ => rfl)).2.1
      (by decide),
    (dispatcher_buffer_accounting ⟨0, 2⟩ (fun pq => pq) (.sent 4) (fun _ => rfl)).2.2.1 rfl,
    ((dispatcher_buffer_accounting ⟨1, 2⟩ (fun pq => pq) (.sent 4) (fun _ => rfl)).2.2.2.1
      (by decide)).1,
    (dispatcher_buffer_accounting ⟨0, 2⟩ (fun pq => pq) (.sent 4) (fun _ => rfl)).2.2.2.2.1
      rfl,
    (dispatcher_buffer_accounting ⟨1, 2⟩ (fun pq => pq) (.sent 4) (fun _ => rfl)).2.2.2.2.2⟩

/-- Claim C8: BitFieldMessage::new builds a byte vector of exactly
ceil(total_pieces / 8) entries, all zero. -/
theorem bitfield_new_len_zero (total_pieces : Nat) (h : total_pieces < 2 ^ 32) :
    (BitFieldMessage.new total_pieces).length = (total_pieces + 7) / 8 ∧
      ∀ b ∈ BitFieldMessage.new total_pieces, b = 0 := by
  constructor
  · by_cases h8 : total_pieces % 8 = 0 <;>
      simp [BitFieldMessage.new, h8] <;> omega
  · intro b hb
    exact List.eq_of_mem_replicate hb

/-- Claim C8 witness: concrete run at 12 pieces, two zero bytes. -/
theorem bitfield_new_len_zero_witness :
    (BitFieldMessage.new 12).length = (12 + 7) / 8 ∧ BitFieldMessage.new 12 = [0, 0] :=
  ⟨(bitfield_new_len_zero 12 (by decide)).1, rfl⟩

/-- Claim C9: converting a BlockMut into a Block preserves the metadata
and the byte contents. -/
theorem block_from_block_mut_preserves (block : BlockMut) :
    (blockFromBlockMut block).metadata = block.metadata ∧
      (blockFromBlockMut block).block_data = block.block_data :=
  ⟨rfl, rfl⟩

/-- Claim C10: with no access directory, build_with_accessor emits the
single-file layout (length plus concatenated path components as name)
exactly when there is one file, and the multi-file layout with empty name
and all (length, path) entries when there are two or more; with a
directory it always emits the multi-file layout named by that
directory. -/
theorem build_info_mode_cases (files_info : List (Nat × List (List Nat))) :
    (∀ len path, files_info = [(len, path)] →
        build_info_mode none files_info = some (.single len path.flatten)) ∧
      (1 < files_info.length →
        build_info_mode none files_info = some (.multi [] files_info)) ∧
      (∀ dir, build_info_mode (some dir) files_info = some (.multi dir files_info)) ∧
      (∀ len name, build_info_mode none files_info = some (.single len name) →
        files_info.length = 1) := by
  refine ⟨?_, ?_, ?_, ?_⟩
  · rintro len path rfl
    simp [build_info_mode]
  · intro hlen
    simp [build_info_mode, hlen]
  · intro dir
    simp [build_info_mode]
  · intro len name hmode
    by_cases hlen : 1 < files_info.length
    · simp [build_info_mode, hlen] at hmode
    · cases files_info with
      | nil => simp [build_info_mode] at hmode
      | cons f rest =>
        simp only [List.length_cons] at hlen ⊢
        omega

/-- Binding an ok value in the Except monad applies the continuation. -/
theorem except_bind_ok {ε α β : Type} (a : α) (f : α → Except ε β) :
    (Except.ok a >>= f : Except ε β) = f a := rfl

/-- Binding an error in the Except monad propagates the error. -/
theorem except_bind_error {ε α β : Type} (e : ε) (f : α → Except ε β) :
    (Except.error e >>= f : Except ε β) = .error e := rfl

/-- Pure in the Except monad is ok. -/
theorem except_pure_eq {ε α : Type} (a : α) : (pure a : Except ε α) = .ok a := rfl

/-- Mapping over an ok value in the Except monad. -/
theorem except_map_ok {ε α β : Type} (a : α) (f : α → β) :
    (Except.ok a : Except ε α).map f = .ok (f a) := rfl

/-- Mapping over an error in the Except monad. -/
theorem except_map_error {ε α β : Type} (e : ε) (f : α → β) :
    (Except.error e : Except ε α).map f = .error e := rfl

/-- Claim C3 counterexample: an arguments dictionary with valid 20-byte
id and info_hash, a token, no implied_port key and port equal to 65536
parses to ConnectPort::Explicit(0): the port value is passed through
unsigned_abs() as u16, so the result is not Explicit with the value of
the port key. -/
theorem announce_from_parts_port_truncates :
    AnnouncePeerRequest.from_parts overflowPortArgs [] =
        .ok ⟨[], zeroId, zeroId, [116], .Explicit 0⟩ ∧
      blookup overflowPortArgs PORT_KEY = some (.int 65536) ∧
      (ConnectPort.Explicit 0 : ConnectPort) ≠ .Explicit 65536 := by
  refine ⟨rfl, rfl, by decide⟩

/-- Claim C3 (amended): on an arguments dictionary with a valid 20-byte
id, a valid 20-byte info_hash and a token, from_parts returns
ConnectPort::Implied exactly when the implied_port key is present as an
integer with non-zero value (any non-zero integer, not just 1), without
consulting the port key at all in that case; otherwise it returns
ConnectPort::Explicit with the port key value taken through absolute
value and truncation to 16 bits (equal to the port value whenever that
value lies in 0..65535). -/
theorem announce_from_parts_implied (d : List (List Nat × BValue))
    (tid nid ih tok : List Nat)
    (hid : blookup d NODE_ID_KEY = some (.bytes nid)) (hnl : nid.length = 20)
    (hih : blookup d INFO_HASH_KEY = some (.bytes ih)) (hihl : ih.length = 20)
    (htok : blookup d TOKEN_KEY = some (.bytes tok)) :
    ((∃ n, blookup d IMPLIED_PORT_KEY = some (.int n) ∧ n ≠ 0) →
        AnnouncePeerRequest.from_parts d tid = .ok ⟨tid, nid, ih, tok, .Implied⟩) ∧
      (∀ p, ¬(∃ n, blookup d IMPLIED_PORT_KEY = some (.int n) ∧ n ≠ 0) →
        blookup d PORT_KEY = some (.int p) →
        AnnouncePeerRequest.from_parts d tid =
          .ok ⟨tid, nid, ih, tok, .Explicit (p.natAbs % 65536)⟩) ∧
      (∀ r, AnnouncePeerRequest.from_parts d tid = .ok r →
        (r.port = .Implied ↔
          ∃ n, blookup d IMPLIED_PORT_KEY = some (.int n) ∧ n ≠ 0)) := by
  have himpl : (∃ n, blookup d IMPLIED_PORT_KEY = some (.int n) ∧ n ≠ 0) →
      AnnouncePeerRequest.from_parts d tid = .ok ⟨tid, nid, ih, tok, .Implied⟩ := by
    rintro ⟨n, hlook, hn⟩
    simp [AnnouncePeerRequest.from_parts, lookup_and_convert_bytes, hid, hih, htok,
      validate_node_id, validate_info_hash, hnl, hihl, hlook, BValue.int?, hn,
      except_bind_ok, except_pure_eq]
  have hexpl : ∀ p, ¬(∃ n, blookup d IMPLIED_PORT_KEY = some (.int n) ∧ n ≠ 0) →
      blookup d PORT_KEY = some (.int p) →
      AnnouncePeerRequest.from_parts d tid =
        .ok ⟨tid, nid, ih, tok, .Explicit (p.natAbs % 65536)⟩ := by
    intro p hnc hport
    cases hlook : blookup d IMPLIED_PORT_KEY with
    | none =>
      simp [AnnouncePeerRequest.from_parts, lookup_and_convert_bytes,
        lookup_and_convert_int, hid, hih, htok, validate_node_id, validate_info_hash,
        hnl, hihl, hlook, hport, except_bind_ok, except_pure_eq, except_map_ok]
    | some v =>
      cases v with
      | int n =>
        have hn0 : n = 0 := by
          by_contra h0
          exact hnc ⟨n, hlook, h0⟩
        subst hn0
        simp [AnnouncePeerRequest.from_parts, lookup_and_convert_bytes,
          lookup_and_convert_int, hid, hih, htok, validate_node_id, validate_info_hash,
          hnl, hihl, hlook, hport, BValue.int?, except_bind_ok, except_pure_eq,
          except_map_ok]
      | bytes bs =>
        simp [AnnouncePeerRequest.from_parts, lookup_and_convert_bytes,
          lookup_and_convert_int, hid, hih, htok, validate_node_id, validate_info_hash,
          hnl, hihl, hlook, hport, BValue.int?, except_bind_ok, except_pure_eq,
          except_map_ok]
      | list xs =>
        simp [AnnouncePeerRequest.from_parts, lookup_and_convert_bytes,
          lookup_and_convert_int, hid, hih, htok, validate_node_id, validate_info_hash,
          hnl, hihl, hlook, hport, BValue.int?, except_bind_ok, except_pure_eq,
          except_map_ok]
      | dict kvs =>
        simp [AnnouncePeerRequest.from_parts, lookup_and_convert_bytes,
          lookup_and_convert_int, hid, hih, htok, validate_node_id, validate_info_hash,
          hnl, hihl, hlook, hport, BValue.int?, except_bind_ok, except_pure_eq,
          except_map_ok]
  have hexplGen : ¬(∃ n, blookup d IMPLIED_PORT_KEY = some (.int n) ∧ n ≠ 0) →
      ∀ r, AnnouncePeerRequest.from_parts d tid = .ok r → ∃ m, r.port = .Explicit m := by
    intro hnc r hr
    cases hq : lookup_and_convert_int d PORT_KEY with
    | error e =>
      have hbad : AnnouncePeerRequest.from_parts d tid = .error e := by
        cases hlook : blookup d IMPLIED_PORT_KEY with
        | none =>
          simp [AnnouncePeerRequest.from_parts, lookup_and_convert_bytes, hid, hih,
            htok, validate_node_id, validate_info_hash, hnl, hihl, hlook, hq,
            except_bind_ok, except_pure_eq, except_map_error, except_bind_error]
        | some v =>
          cases v with
          | int n =>
            have hn0 : n = 0 := by
              by_contra h0
              exact hnc ⟨n, hlook, h0⟩
            subst hn0
            simp [AnnouncePeerRequest.from_parts, lookup_and_convert_bytes, hid, hih,
              htok, validate_node_id, validate_info_hash, hnl, hihl, hlook, hq,
              BValue.int?, except_bind_ok, except_pure_eq, except_map_error,
              except_bind_error]
          | bytes bs =>
            simp [AnnouncePeerRequest.from_parts, lookup_and_convert_bytes, hid, hih,
              htok, validate_node_id, validate_info_hash, hnl, hihl, hlook, hq,
              BValue.int?, except_bind_ok, except_pure_eq, except_map_error,
              except_bind_error]
          | list xs =>
            simp [AnnouncePeerRequest.from_parts, lookup_and_convert_bytes, hid, hih,
              htok, validate_node_id, validate_info_hash, hnl, hihl, hlook, hq,
              BValue.int?, except_bind_ok, except_pure_eq, except_map_error,
              except_bind_error]
          | dict kvs =>
            simp [AnnouncePeerRequest.from_parts, lookup_and_convert_bytes, hid, hih,
              htok, validate_node_id, validate_info_hash, hnl, hihl, hlook, hq,
              BValue.int?, except_bind_ok, except_pure_eq, except_map_error,
              except_bind_error]
      rw [hbad] at hr
      exact absurd hr (by simp)
    | ok p =>
      have hport : blookup d PORT_KEY = some (.int p) := by
        unfold lookup_and_convert_int at hq
        cases hb : blookup d PORT_KEY with
        | none => rw [hb] at hq; exact absurd hq (by simp)
        | some v =>
          cases v with
          | int m => rw [hb] at hq; simp at hq; simp [hq]
          | bytes bs => rw [hb] at hq; exact absurd hq (by simp)
          | list xs => rw [hb] at hq; exact absurd hq (by simp)
          | dict kvs => rw [hb] at hq; exact absurd hq (by simp)
      have := hexpl p hnc hport
      rw [this] at hr
      have hr2 : r = ⟨tid, nid, ih, tok, .Explicit (p.natAbs % 65536)⟩ := by
        cases hr
        rfl
      exact ⟨p.natAbs % 65536, by rw [hr2]⟩
  refine ⟨himpl, hexpl, ?_⟩
  intro r hr
  constructor
  · intro hrport
    by_contra hnc
    obtain ⟨m, hm⟩ := hexplGen hnc r hr
    rw [hrport] at hm
    exact ConnectPort.noConfusion hm
  · intro hc
    have := himpl hc
    rw [this] at hr
    cases hr
    rfl

/-- Claim C3 witness: a dictionary with implied_port = 5 and no port key
parses to Implied through the amended statement. -/
theorem announce_from_parts_implied_witness :
    AnnouncePeerRequest.from_parts
        [(NODE_ID_KEY, .bytes zeroId), (INFO_HASH_KEY, .bytes zeroId),
         (TOKEN_KEY, .bytes [116]), (IMPLIED_PORT_KEY, .int 5)] [] =
      .ok ⟨[], zeroId, zeroId, [116], .Implied⟩ :=
  (announce_from_parts_implied
      [(NODE_ID_KEY, .bytes zeroId), (INFO_HASH_KEY, .bytes zeroId),
       (TOKEN_KEY, .bytes [116]), (IMPLIED_PORT_KEY, .int 5)]
      [] zeroId zeroId [116] rfl rfl rfl rfl rfl).1 ⟨5, rfl, by decide⟩

/-- Computed form of AnnouncePeerRequest::encode: the outer keys settle
into the order a, q, t, y and the a dictionary keeps the order id,
implied_port, info_hash, port, token. -/
theorem announce_encode_eq (tid nid ih tok : List Nat) (port : ConnectPort) :
    AnnouncePeerRequest.encode ⟨tid, nid, ih, tok, port⟩ =
      .dict [(REQUEST_ARGS_KEY, .dict [
                (NODE_ID_KEY, .bytes nid),
                (IMPLIED_PORT_KEY, .int (implied_value port)),
                (INFO_HASH_KEY, .bytes ih),
                (PORT_KEY, .int (displayed_port port)),
                (TOKEN_KEY, .bytes tok)]),
             (REQUEST_TYPE_KEY, .bytes ANNOUNCE_PEER_TYPE_KEY),
             (TRANSACTION_ID_KEY, .bytes tid),
             (MESSAGE_TYPE_KEY, .bytes REQUEST_TYPE_KEY)] := rfl

/-- Claim C5: the encoded announce_peer request has its dictionary keys
in ascending byte order at every nesting level, and its arguments
dictionary always contains both port and implied_port, holding 0 and 1
when the connect port is Implied and n and 0 when it is Explicit(n). -/
theorem announce_encode_sorted (r : AnnouncePeerRequest) :
    AscKeys r.encode ∧
      blookup (args_entries r.encode) PORT_KEY =
        some (.int (displayed_port r.port)) ∧
      blookup (args_entries r.encode) IMPLIED_PORT_KEY =
        some (.int (implied_value r.port)) ∧
      (r.port = .Implied → displayed_port r.port = 0 ∧ implied_value r.port = 1) ∧
      (∀ n, r.port = .Explicit n →
        displayed_port r.port = n ∧ implied_value r.port = 0) := by
  obtain ⟨tid, nid, ih, tok, port⟩ := r
  rw [announce_encode_eq]
  refine ⟨?_, rfl, rfl, ?_, ?_⟩
  · refine AscKeys.dict _ ?_ ?_
    · simp only [List.map_cons, List.map_nil, List.chain'_cons, List.chain'_singleton,
        and_true]
      decide
    · intro kv hkv
      simp only [List.mem_cons, List.not_mem_nil, or_false] at hkv
      rcases hkv with rfl | rfl | rfl | rfl
      · refine AscKeys.dict _ ?_ ?_
        · simp only [List.map_cons, List.map_nil, List.chain'_cons, List.chain'_singleton,
            and_true]
          decide
        · intro kv2 hkv2
          simp only [List.mem_cons, List.not_mem_nil, or_false] at hkv2
          rcases hkv2 with rfl | rfl | rfl | rfl | rfl
          · exact AscKeys.bytes _
          · exact AscKeys.int _
          · exact AscKeys.bytes _
          · exact AscKeys.int _
          · exact AscKeys.bytes _
      · exact AscKeys.bytes _
      · exact AscKeys.bytes _
      · exact AscKeys.bytes _
  · rintro rfl
    exact ⟨rfl, rfl⟩
  · rintro n rfl
    exact ⟨rfl, rfl⟩

/-- Claim C5 witness: concrete implied-port request. -/
theorem announce_encode_sorted_witness :
    AscKeys (AnnouncePeerRequest.encode ⟨[1], zeroId, zeroId, [2], .Implied⟩) ∧
      blookup (args_entries (AnnouncePeerRequest.encode
        ⟨[1], zeroId, zeroId, [2], .Implied⟩)) PORT_KEY = some (.int 0) ∧
      blookup (args_entries (AnnouncePeerRequest.encode
        ⟨[1], zeroId, zeroId, [2], .Implied⟩)) IMPLIED_PORT_KEY = some (.int 1) := by
  obtain ⟨h1, h2, h3, -, -⟩ :=
    announce_encode_sorted ⟨[1], zeroId, zeroId, [2], .Implied⟩
  exact ⟨h1, h2, h3⟩

/-- Claim C7: when the r key is present as a dictionary and the expected
response kind for the transaction is None (the transaction id is not in
the expected-response table), ResponseType::from_parts returns the
UnsolicitedResponse error and never a successfully parsed response. -/
theorem response_from_parts_unsolicited (root : List (List Nat × BValue))
    (trans_id : List Nat) (d : List (List Nat × BValue))
    (h : blookup root RESPONSE_ARGS_KEY = some (.dict d)) :
    ResponseType.from_parts root trans_id .None = some (.error .unsolicitedResponse) := by
  simp [ResponseType.from_parts, lookup_and_convert_dict, h]

/-- Claim C7 witness: concrete envelope with an empty r dictionary. -/
theorem response_from_parts_unsolicited_witness :
    ResponseType.from_parts [(RESPONSE_ARGS_KEY, .dict [])] [] .None =
      some (.error .unsolicitedResponse) :=
  response_from_parts_unsolicited [(RESPONSE_ARGS_KEY, .dict [])] [] [] rfl

/-- Binding a some value in the Option monad applies the continuation. -/
theorem option_bind_some {α β : Type} (a : α) (f : α → Option β) :
    (some a >>= f) = f a := rfl

/-- Binding none in the Option monad yields none. -/
theorem option_bind_none {α β : Type} (f : α → Option β) :
    ((none : Option α) >>= f) = none := rfl

/-- The fuelled ceiling logarithm dominates its argument as long as the
argument fits in 2^fuel. -/
theorem le_two_pow_clog2fuel : ∀ fuel n, n ≤ 2 ^ fuel → n ≤ 2 ^ clog2fuel fuel n := by
  intro fuel
  induction fuel with
  | zero =>
    intro n hn
    simpa [clog2fuel] using hn
  | succ f ihf =>
    intro n hn
    by_cases h1 : n ≤ 1
    · simp only [clog2fuel, if_pos h1, pow_zero]
      exact h1
    · have h2f : 2 ^ (f + 1) = 2 * 2 ^ f := by ring
      have hrec : (n + 1) / 2 ≤ 2 ^ f := by omega
      have hmid := ihf ((n + 1) / 2) hrec
      have h2 : n ≤ 2 * ((n + 1) / 2) := by omega
      have h3 : 2 * ((n + 1) / 2) ≤ 2 * 2 ^ clog2fuel f ((n + 1) / 2) := by omega
      simp only [clog2fuel, if_neg h1]
      calc n ≤ 2 * ((n + 1) / 2) := h2
        _ ≤ 2 * 2 ^ clog2fuel f ((n + 1) / 2) := h3
        _ = 2 ^ (clog2fuel f ((n + 1) / 2) + 1) := by ring

/-- next_power_of_two dominates every argument in the u64 domain. -/
theorem le_next_power_of_two (n : Nat) (h : n ≤ 2 ^ 64) : n ≤ next_power_of_two n :=
  le_two_pow_clog2fuel 64 n h

/-- Ceiling division is below k exactly when the numerator is below b*k. -/
theorem ceil_div_le_iff (a b k : Nat) (hb : 0 < b) : ceil_div a b ≤ k ↔ a ≤ b * k := by
  unfold ceil_div
  rw [Nat.div_le_iff_le_mul_add_pred hb]
  generalize b * k = M
  omega

/-- A power of two strictly above another leaves room for a factor of
two. -/
theorem two_mul_pow_le_of_lt {a c : Nat} (h : 2 ^ a < 2 ^ c) : 2 * 2 ^ a ≤ 2 ^ c := by
  have hac : a < c := by
    by_contra hge
    push_neg at hge
    exact absurd (Nat.pow_le_pow_right (by norm_num) hge : (2 : Nat) ^ c ≤ 2 ^ a) (by omega)
  calc 2 * 2 ^ a = 2 ^ (a + 1) := by ring
    _ ≤ 2 ^ c :=
      (Nat.pow_le_pow_right (by norm_num) (by omega) : (2 : Nat) ^ (a + 1) ≤ 2 ^ c)

/-- Arithmetic core of the piece count bound: when the rounded quotient
t of file size by np sits below pot and np is at most 2 pot, the file
fits into np + 1 pieces of size pot. -/
theorem target_arith (fsize np t pot : Nat) (hnp : 0 < np)
    (ht : t = (2 * fsize + np) / (2 * np)) (hle : t ≤ pot) (hcnd : np ≤ 2 * pot) :
    fsize ≤ pot * (np + 1) := by
  subst ht
  have hdm := Nat.div_add_mod (2 * fsize + np) (2 * np)
  have hmlt : (2 * fsize + np) % (2 * np) < 2 * np := Nat.mod_lt _ (by omega)
  have hA : np * ((2 * fsize + np) / (2 * np)) ≤ np * pot :=
    Nat.mul_le_mul_left np hle
  have hprod : 2 * np * ((2 * fsize + np) / (2 * np)) =
      2 * (np * ((2 * fsize + np) / (2 * np))) := by ring
  rw [hprod] at hdm
  have hg : pot * (np + 1) = np * pot + pot := by ring
  rw [hg]
  generalize hX : np * ((2 * fsize + np) / (2 * np)) = X at hdm hA
  generalize hR : (2 * fsize + np) % (2 * np) = R at hdm hmlt
  generalize hY : np * pot = Y at hA ⊢
  omega

/-- The three clamping outcomes of calculate_piece_length. -/
theorem calc_pl_cases (fsize mps minp : Nat) :
    calculate_piece_length fsize mps minp = pot_piece_length fsize mps ∨
      calculate_piece_length fsize mps minp = minp ∨
      calculate_piece_length fsize mps minp = ALL_OPT_MAX_PIECE_LENGTH := by
  unfold calculate_piece_length
  by_cases h1 : pot_piece_length fsize mps > minp <;>
    by_cases h2 : pot_piece_length fsize mps < ALL_OPT_MAX_PIECE_LENGTH <;>
      simp [h1, h2]

/-- calculate_piece_length stays within the strategy minimum and the
16 MiB cap. -/
theorem calc_pl_min_le (fsize mps minp : Nat) (hminle : minp ≤ ALL_OPT_MAX_PIECE_LENGTH) :
    minp ≤ calculate_piece_length fsize mps minp ∧
      calculate_piece_length fsize mps minp ≤ ALL_OPT_MAX_PIECE_LENGTH := by
  unfold calculate_piece_length
  by_cases h1 : pot_piece_length fsize mps > minp <;>
    by_cases h2 : pot_piece_length fsize mps < ALL_OPT_MAX_PIECE_LENGTH <;>
      simp [h1, h2] <;> omega

/-- When the power-of-two length lies strictly between the minimum and
the cap, calculate_piece_length keeps it. -/
theorem calc_pl_unclamped (fsize mps minp : Nat) (h1 : minp < pot_piece_length fsize mps)
    (h2 : pot_piece_length fsize mps < ALL_OPT_MAX_PIECE_LENGTH) :
    calculate_piece_length fsize mps minp = pot_piece_length fsize mps := by
  unfold calculate_piece_length
  simp [h1, h2]

/-- The unclamped power-of-two piece length keeps the piece count within
np + 1. -/
theorem pot_target (fsize np minp a : Nat) (hnp : 0 < np) (hminp : minp = 2 ^ a)
    (hcnd : np ≤ 4 * minp) (ht64 : (2 * fsize + np) / (2 * np) ≤ 2 ^ 64)
    (h1 : minp < next_power_of_two ((2 * fsize + np) / (2 * np))) :
    ceil_div fsize (next_power_of_two ((2 * fsize + np) / (2 * np))) ≤ np + 1 := by
  have hle := le_next_power_of_two ((2 * fsize + np) / (2 * np)) ht64
  have h2m : 2 * minp ≤ next_power_of_two ((2 * fsize + np) / (2 * np)) := by
    rw [hminp] at h1 ⊢
    exact two_mul_pow_le_of_lt h1
  have hpotpos : 0 < next_power_of_two ((2 * fsize + np) / (2 * np)) :=
    pow_pos (by norm_num) _
  rw [ceil_div_le_iff _ _ _ hpotpos]
  exact target_arith fsize np _ _ hnp rfl hle (by omega)

/-- Full conclusion bundle for calculate_piece_length at one strategy. -/
theorem calc_full (fsize mps minp a np : Nat) (hf : fsize < 2 ^ 64)
    (hminp : minp = 2 ^ a)
    (hminle : minp ≤ ALL_OPT_MAX_PIECE_LENGTH) (hnpeq : mps / SHA_HASH_LEN = np)
    (hnp : 0 < np) (hcnd : np ≤ 4 * minp) (hmps : np * SHA_HASH_LEN = mps) :
    (∃ k, calculate_piece_length fsize mps minp = 2 ^ k) ∧
      minp ≤ calculate_piece_length fsize mps minp ∧
      calculate_piece_length fsize mps minp ≤ ALL_OPT_MAX_PIECE_LENGTH ∧
      (minp < pot_piece_length fsize mps →
        pot_piece_length fsize mps < ALL_OPT_MAX_PIECE_LENGTH →
        ceil_div fsize (calculate_piece_length fsize mps minp) * SHA_HASH_LEN ≤
          mps + SHA_HASH_LEN) := by
  refine ⟨?_, (calc_pl_min_le fsize mps minp hminle).1,
    (calc_pl_min_le fsize mps minp hminle).2, ?_⟩
  · rcases calc_pl_cases fsize mps minp with h | h | h
    · rw [h]
      exact ⟨_, rfl⟩
    · rw [h, hminp]
      exact ⟨a, rfl⟩
    · rw [h]
      exact ⟨24, by norm_num [ALL_OPT_MAX_PIECE_LENGTH]⟩
  · intro hA hB
    rw [calc_pl_unclamped fsize mps minp hA hB]
    have h1 : minp < next_power_of_two ((2 * fsize + np) / (2 * np)) := by
      unfold pot_piece_length at hA
      rw [hnpeq] at hA
      exact hA
    have ht64 : (2 * fsize + np) / (2 * np) ≤ 2 ^ 64 := by
      have ha : (2 * fsize + np) / (2 * np) ≤ (2 * fsize + 2 * np) / (2 * np) :=
        Nat.div_le_div_right (by omega)
      have hb : (2 * fsize + 2 * np) / (2 * np) = 2 * fsize / (2 * np) + 1 :=
        Nat.add_div_right _ (by omega)
      have hc : 2 * fsize / (2 * np) = fsize / np := Nat.mul_div_mul_left _ _ (by omega)
      have hd : fsize / np ≤ fsize := Nat.div_le_self _ _
      omega
    have htar := pot_target fsize np minp a hnp hminp hcnd ht64 h1
    have hceil : ceil_div fsize (pot_piece_length fsize mps) ≤ np + 1 := by
      unfold pot_piece_length
      rw [hnpeq]
      exact htar
    calc ceil_div fsize (pot_piece_length fsize mps) * SHA_HASH_LEN
        ≤ (np + 1) * SHA_HASH_LEN := Nat.mul_le_mul_right _ hceil
      _ = mps + SHA_HASH_LEN := by rw [Nat.succ_mul, hmps]

/-- Claim C6 counterexample: for the 2 097 152 999 byte file under
OptBalanced the chosen piece length is 1 MiB, unclamped (it lies
strictly between the 512 KiB minimum and the 16 MiB cap), yet the file
needs 2001 pieces, so the pieces size 2001 x 20 = 40020 exceeds the
40000 target: the rounding of size / 2000 + 0.5 can round down to a
power of two that is one piece short. -/
theorem piece_length_exceeds_target :
    determine_piece_length 2097152999 .OptBalanced = 1048576 ∧
      BALANCED_MIN_PIECE_LENGTH < pot_piece_length 2097152999 BALANCED_MAX_PIECES_SIZE ∧
      pot_piece_length 2097152999 BALANCED_MAX_PIECES_SIZE < ALL_OPT_MAX_PIECE_LENGTH ∧
      BALANCED_MAX_PIECES_SIZE <
        ceil_div 2097152999 (determine_piece_length 2097152999 .OptBalanced) *
          SHA_HASH_LEN := by
  refine ⟨by decide, by decide, by decide, by decide⟩

/-- Claim C6 (amended): for each of OptBalanced, OptFileSize and
OptTransfer and every file size, the chosen piece length is a power of
two, at least the strategy minimum (512 KiB, 1 MiB, 1 KiB) and at most
16 MiB; and whenever the power-of-two length was not clamped to the
minimum or the cap, the pieces size ceil(file_size / piece_length) x 20
is at most max_pieces_size + 20 (40000, 20000, 60000 plus one hash): the
half-up rounding admits at most one piece over the target. -/
theorem piece_length_bounds (strat : PieceLength) (fsize : Nat) (hf : fsize < 2 ^ 64)
    (hs : strat = .OptBalanced ∨ strat = .OptFileSize ∨ strat = .OptTransfer) :
    (∃ k, determine_piece_length fsize strat = 2 ^ k) ∧
      strategy_min strat ≤ determine_piece_length fsize strat ∧
      determine_piece_length fsize strat ≤ ALL_OPT_MAX_PIECE_LENGTH ∧
      (strategy_min strat < pot_piece_length fsize (strategy_max_pieces strat) →
        pot_piece_length fsize (strategy_max_pieces strat) < ALL_OPT_MAX_PIECE_LENGTH →
        ceil_div fsize (determine_piece_length fsize strat) * SHA_HASH_LEN ≤
          strategy_max_pieces strat + SHA_HASH_LEN) := by
  rcases hs with rfl | rfl | rfl
  · exact calc_full fsize BALANCED_MAX_PIECES_SIZE BALANCED_MIN_PIECE_LENGTH 19 2000 hf
      (by norm_num [BALANCED_MIN_PIECE_LENGTH])
      (by norm_num [BALANCED_MIN_PIECE_LENGTH, ALL_OPT_MAX_PIECE_LENGTH])
      (by norm_num [BALANCED_MAX_PIECES_SIZE, SHA_HASH_LEN]) (by norm_num)
      (by norm_num [BALANCED_MIN_PIECE_LENGTH])
      (by norm_num [BALANCED_MAX_PIECES_SIZE, SHA_HASH_LEN])
  · exact calc_full fsize FILE_SIZE_MAX_PIECES_SIZE FILE_SIZE_MIN_PIECE_LENGTH 20 1000 hf
      (by norm_num [FILE_SIZE_MIN_PIECE_LENGTH])
      (by norm_num [FILE_SIZE_MIN_PIECE_LENGTH, ALL_OPT_MAX_PIECE_LENGTH])
      (by norm_num [FILE_SIZE_MAX_PIECES_SIZE, SHA_HASH_LEN]) (by norm_num)
      (by norm_num [FILE_SIZE_MIN_PIECE_LENGTH])
      (by norm_num [FILE_SIZE_MAX_PIECES_SIZE, SHA_HASH_LEN])
  · exact calc_full fsize TRANSFER_MAX_PIECES_SIZE TRANSFER_MIN_PIECE_LENGTH 10 3000 hf
      (by norm_num [TRANSFER_MIN_PIECE_LENGTH])
      (by norm_num [TRANSFER_MIN_PIECE_LENGTH, ALL_OPT_MAX_PIECE_LENGTH])
      (by norm_num [TRANSFER_MAX_PIECES_SIZE, SHA_HASH_LEN]) (by norm_num)
      (by norm_num [TRANSFER_MIN_PIECE_LENGTH])
      (by norm_num [TRANSFER_MAX_PIECES_SIZE, SHA_HASH_LEN])

/-- Claim C6 witness: the design document example, a 4 GiB file under
OptBalanced: the chosen length is 4 MiB, within bounds, with the pieces
size within one hash of the target. -/
theorem piece_length_bounds_witness :
    determine_piece_length 4294967296 .OptBalanced = 4194304 ∧
      strategy_min .OptBalanced ≤ determine_piece_length 4294967296 .OptBalanced ∧
      determine_piece_length 4294967296 .OptBalanced ≤ ALL_OPT_MAX_PIECE_LENGTH ∧
      ceil_div 4294967296 (determine_piece_length 4294967296 .OptBalanced) * SHA_HASH_LEN ≤
        strategy_max_pieces .OptBalanced + SHA_HASH_LEN := by
  refine ⟨by decide, ?_, ?_, ?_⟩
  · exact (piece_length_bounds .OptBalanced 4294967296 (by norm_num) (Or.inl rfl)).2.1
  · exact (piece_length_bounds .OptBalanced 4294967296 (by norm_num) (Or.inl rfl)).2.2.1
  · exact (piece_length_bounds .OptBalanced 4294967296 (by norm_num) (Or.inl rfl)).2.2.2
      (by decide) (by decide)

/-- Reading back the big-endian bytes of n recovers n and the rest of
the input. -/
theorem readBE_bytesBE (w n : Nat) (rest : List Nat) (h : n < 256 ^ w) :
    readBE w (bytesBE w n ++ rest) = some (n, rest) := by
  induction w generalizing n rest with
  | zero =>
    rw [pow_zero] at h
    have hn : n = 0 := by omega
    subst hn
    rfl
  | succ w ih =>
    have hb : bytesBE (w + 1) n ++ rest = n / 256 ^ w :: (bytesBE w (n % 256 ^ w) ++ rest) :=
      rfl
    rw [hb]
    simp only [readBE]
    rw [ih (n % 256 ^ w) rest (Nat.mod_lt _ (pow_pos (by norm_num) w))]
    simp [Nat.div_add_mod']

/-- Reading back the big-endian bytes of n with no trailing input. -/
theorem readBE_bytesBE_nil (w n : Nat) (h : n < 256 ^ w) :
    readBE w (bytesBE w n) = some (n, []) := by
  have hr := readBE_bytesBE w n [] h
  rwa [List.append_nil] at hr

/-- Taking exactly the length of a prefix returns that prefix and the
rest. -/
theorem takeN_append (n : Nat) (l rest : List Nat) (h : l.length = n) :
    takeN n (l ++ rest) = some (l, rest) := by
  subst h
  unfold takeN
  rw [if_pos (by simp)]
  rw [List.take_left, List.drop_left]

/-- The i32 two's-complement wire value decodes back to the original
integer. -/
theorem i32_roundtrip (n : Int) (h1 : -(2 ^ 31) ≤ n) (h2 : n < 2 ^ 31) :
    i32val ((n % (2 ^ 32 : Int)).toNat) = n := by
  unfold i32val
  have e1 : ((2 : Int) ^ 31) = 2147483648 := by norm_num
  have e2 : ((2 : Int) ^ 32) = 4294967296 := by norm_num
  have e3 : ((2 : Nat) ^ 31) = 2147483648 := by norm_num
  rw [e1, e2] at *
  rw [e3]
  split_ifs with hlt
  · omega
  · omega

/-- Reading four bytes of an encoded i32. -/
theorem readBE_i32be (n : Int) (rest : List Nat) :
    readBE 4 (i32be n ++ rest) = some ((n % (2 ^ 32 : Int)).toNat, rest) := by
  apply readBE_bytesBE
  have e2 : ((2 : Int) ^ 32) = 4294967296 := by norm_num
  have e4 : (256 : Nat) ^ 4 = 4294967296 := by norm_num
  rw [e2, e4]
  omega

/-- The announce event wire value decodes back to the event. -/
theorem event_id_roundtrip (e : AnnounceEvent) : event_from_id e.event_id = some e := by
  cases e <;> rfl

/-- Parsing the concatenation of 20-byte hashes recovers them all with
nothing left. -/
theorem parse_hashes_flatten : ∀ (hs : List (List Nat)), (∀ h ∈ hs, h.length = 20) →
    parse_hashes hs.flatten = (hs, []) := by
  intro hs
  induction hs with
  | nil =>
    intro _
    simp [parse_hashes]
  | cons h t iht =>
    intro hlen
    have hh : h.length = 20 := hlen h (by simp)
    have ht20 : ∀ x ∈ t, x.length = 20 := fun x hx => hlen x (by simp [hx])
    have hc : 20 ≤ (h ++ t.flatten).length := by simp [hh]
    rw [List.flatten_cons, parse_hashes, dif_pos hc, List.take_left' hh,
      List.drop_left' hh, iht ht20]

/-- A well-formed scrape body round-trips. -/
theorem scrape_roundtrip (req : ScrapeRequest) (hwf : req.WF) :
    ScrapeRequest.from_bytes req.write_bytes = some (req, []) := by
  obtain ⟨hs⟩ := req
  obtain ⟨hne, hlen⟩ := hwf
  have hp := parse_hashes_flatten hs hlen
  cases hs with
  | nil => exact absurd rfl hne
  | cons h t =>
    simp only [ScrapeRequest.from_bytes, ScrapeRequest.write_bytes] at hp ⊢
    rw [hp]

/-- A well-formed IPv4 announce body round-trips. -/
theorem announce_v4_roundtrip (req : AnnounceRequest) (ip rest : List Nat)
    (hip : req.source_ip = .V4 ip) (hwf : req.WF) :
    AnnounceRequest.from_bytes_v4 (req.write_bytes ++ rest) = some (req, rest) := by
  obtain ⟨ihash, pid, dl, lf, ul, ev, sip, key, nw, port⟩ := req
  have hip2 : sip = .V4 ip := hip
  subst hip2
  obtain ⟨h1, h2, h3, h4, h5, h6, h7, h8, h9, h10⟩ := hwf
  have h10a : ip.length = 4 := h10
  have h3a : dl < 2 ^ 64 := h3
  have h4a : lf < 2 ^ 64 := h4
  have h5a : ul < 2 ^ 64 := h5
  have h6a : key < 2 ^ 32 := h6
  have h7a : -(2 ^ 31 : Int) ≤ nw := h7
  have h8a : nw < 2 ^ 31 := h8
  have h9a : port < 2 ^ 16 := h9
  have hev : AnnounceEvent.event_id ev < 256 ^ 4 := by
    cases ev <;> norm_num [AnnounceEvent.event_id]
  have e64 : (256 : Nat) ^ 8 = 2 ^ 64 := by norm_num
  have e32 : (256 : Nat) ^ 4 = 2 ^ 32 := by norm_num
  have e16 : (256 : Nat) ^ 2 = 2 ^ 16 := by norm_num
  have t1 : ∀ X, takeN 20 (ihash ++ X) = some (ihash, X) := fun X => takeN_append 20 ihash X h1
  have t2 : ∀ X, takeN 20 (pid ++ X) = some (pid, X) := fun X => takeN_append 20 pid X h2
  have t3 : ∀ X, takeN 4 (ip ++ X) = some (ip, X) := fun X => takeN_append 4 ip X h10a
  have r1 : ∀ X, readBE 8 (bytesBE 8 dl ++ X) = some (dl, X) := fun X =>
    readBE_bytesBE 8 dl X (by omega)
  have r2 : ∀ X, readBE 8 (bytesBE 8 lf ++ X) = some (lf, X) := fun X =>
    readBE_bytesBE 8 lf X (by omega)
  have r3 : ∀ X, readBE 8 (bytesBE 8 ul ++ X) = some (ul, X) := fun X =>
    readBE_bytesBE 8 ul X (by omega)
  have r4 : ∀ X, readBE 4 (bytesBE 4 ev.event_id ++ X) = some (ev.event_id, X) := fun X =>
    readBE_bytesBE 4 ev.event_id X hev
  have r5 : ∀ X, readBE 4 (bytesBE 4 key ++ X) = some (key, X) := fun X =>
    readBE_bytesBE 4 key X (by omega)
  have r6 : ∀ X, readBE 4 (i32be nw ++ X) = some ((nw % (2 ^ 32 : Int)).toNat, X) := fun X =>
    readBE_i32be nw X
  have r7 : ∀ X, readBE 2 (bytesBE 2 port ++ X) = some (port, X) := fun X =>
    readBE_bytesBE 2 port X (by omega)
  have ee : event_from_id ev.event_id = some ev := event_id_roundtrip ev
  have iv : i32val ((nw % (2 ^ 32 : Int)).toNat) = nw := i32_roundtrip nw h7a h8a
  simp only [AnnounceRequest.write_bytes, AnnounceRequest.from_bytes_v4, SourceIp.ip_bytes,
    List.append_assoc, t1, t2, t3, r1, r2, r3, r4, r5, r6, r7, ee, iv, option_bind_some]

/-- A well-formed IPv6 announce body round-trips. -/
theorem announce_v6_roundtrip (req : AnnounceRequest) (ip rest : List Nat)
    (hip : req.source_ip = .V6 ip) (hwf : req.WF) :
    AnnounceRequest.from_bytes_v6 (req.write_bytes ++ rest) = some (req, rest) := by
  obtain ⟨ihash, pid, dl, lf, ul, ev, sip, key, nw, port⟩ := req
  have hip2 : sip = .V6 ip := hip
  subst hip2
  obtain ⟨h1, h2, h3, h4, h5, h6, h7, h8, h9, h10⟩ := hwf
  have h10a : ip.length = 16 := h10
  have h3a : dl < 2 ^ 64 := h3
  have h4a : lf < 2 ^ 64 := h4
  have h5a : ul < 2 ^ 64 := h5
  have h6a : key < 2 ^ 32 := h6
  have h7a : -(2 ^ 31 : Int) ≤ nw := h7
  have h8a : nw < 2 ^ 31 := h8
  have h9a : port < 2 ^ 16 := h9
  have hev : AnnounceEvent.event_id ev < 256 ^ 4 := by
    cases ev <;> norm_num [AnnounceEvent.event_id]
  have e64 : (256 : Nat) ^ 8 = 2 ^ 64 := by norm_num
  have e32 : (256 : Nat) ^ 4 = 2 ^ 32 := by norm_num
  have e16 : (256 : Nat) ^ 2 = 2 ^ 16 := by norm_num
  have t1 : ∀ X, takeN 20 (ihash ++ X) = some (ihash, X) := fun X => takeN_append 20 ihash X h1
  have t2 : ∀ X, takeN 20 (pid ++ X) = some (pid, X) := fun X => takeN_append 20 pid X h2
  have t3 : ∀ X, takeN 16 (ip ++ X) = some (ip, X) := fun X => takeN_append 16 ip X h10a
  have r1 : ∀ X, readBE 8 (bytesBE 8 dl ++ X) = some (dl, X) := fun X =>
    readBE_bytesBE 8 dl X (by omega)
  have r2 : ∀ X, readBE 8 (bytesBE 8 lf ++ X) = some (lf, X) := fun X =>
    readBE_bytesBE 8 lf X (by omega)
  have r3 : ∀ X, readBE 8 (bytesBE 8 ul ++ X) = some (ul, X) := fun X =>
    readBE_bytesBE 8 ul X (by omega)
  have r4 : ∀ X, readBE 4 (bytesBE 4 ev.event_id ++ X) = some (ev.event_id, X) := fun X =>
    readBE_bytesBE 4 ev.event_id X hev
  have r5 : ∀ X, readBE 4 (bytesBE 4 key ++ X) = some (key, X) := fun X =>
    readBE_bytesBE 4 key X (by omega)
  have r6 : ∀ X, readBE 4 (i32be nw ++ X) = some ((nw % (2 ^ 32 : Int)).toNat, X) := fun X =>
    readBE_i32be nw X
  have r7 : ∀ X, readBE 2 (bytesBE 2 port ++ X) = some (port, X) := fun X =>
    readBE_bytesBE 2 port X (by omega)
  have ee : event_from_id ev.event_id = some ev := event_id_roundtrip ev
  have iv : i32val ((nw % (2 ^ 32 : Int)).toNat) = nw := i32_roundtrip nw h7a h8a
  simp only [AnnounceRequest.write_bytes, AnnounceRequest.from_bytes_v6, SourceIp.ip_bytes,
    List.append_assoc, t1, t2, t3, r1, r2, r3, r4, r5, r6, r7, ee, iv, option_bind_some]

/-- Claim C4 counterexample: a Connect request whose connection id is 0
rather than the protocol magic writes 16 bytes that parse_request
rejects (the connect arm demands the magic id), so
decode(encode(m)) = m fails for this TrackerRequest. -/
theorem connect_roundtrip_fails :
    TrackerRequest.from_bytes (TrackerRequest.write_bytes ⟨0, 0, .Connect⟩) = none := rfl

/-- Claim C4 (amended): for every representable TrackerRequest whose
Connect variant carries the protocol-magic connection id (Announce and
Scrape round-trip under any connection id), parsing the written bytes
returns the original request with no input left. -/
theorem tracker_request_roundtrip (r : TrackerRequest) (hwf : r.WF)
    (hconn : r.request_type = .Connect → r.connection_id = CONNECT_ID_PROTOCOL_ID) :
    TrackerRequest.from_bytes r.write_bytes = some (r, []) := by
  obtain ⟨cid, tid, rt⟩ := r
  obtain ⟨hcid, htid, hbody⟩ := hwf
  have hcid2 : cid < 2 ^ 64 := hcid
  have htid2 : tid < 2 ^ 32 := htid
  have e64 : (256 : Nat) ^ 8 = 2 ^ 64 := by norm_num
  have e32 : (256 : Nat) ^ 4 = 2 ^ 32 := by norm_num
  have hm : ∀ X, readBE 8 (bytesBE 8 cid ++ X) = some (cid, X) := fun X =>
    readBE_bytesBE 8 cid X (by omega)
  have ht : ∀ X, readBE 4 (bytesBE 4 tid ++ X) = some (tid, X) := fun X =>
    readBE_bytesBE 4 tid X (by omega)
  have ha1 : ∀ X, readBE 4 (bytesBE 4 ANNOUNCE_IPV4_ACTION_ID ++ X) =
      some (ANNOUNCE_IPV4_ACTION_ID, X) := fun X =>
    readBE_bytesBE 4 _ X (by norm_num [ANNOUNCE_IPV4_ACTION_ID])
  have ha2 : ∀ X, readBE 4 (bytesBE 4 SCRAPE_ACTION_ID ++ X) =
      some (SCRAPE_ACTION_ID, X) := fun X =>
    readBE_bytesBE 4 _ X (by norm_num [SCRAPE_ACTION_ID])
  have ha4 : ∀ X, readBE 4 (bytesBE 4 ANNOUNCE_IPV6_ACTION_ID ++ X) =
      some (ANNOUNCE_IPV6_ACTION_ID, X) := fun X =>
    readBE_bytesBE 4 _ X (by norm_num [ANNOUNCE_IPV6_ACTION_ID])
  have ha0 : ∀ X, readBE 4 (bytesBE 4 CONNECT_ACTION_ID ++ X) =
      some (CONNECT_ACTION_ID, X) := fun X =>
    readBE_bytesBE 4 _ X (by norm_num [CONNECT_ACTION_ID])
  cases rt with
  | Connect =>
    have hc : cid = CONNECT_ID_PROTOCOL_ID := hconn rfl
    subst hc
    have htr : readBE 4 (bytesBE 4 tid) = some (tid, []) :=
      readBE_bytesBE_nil 4 tid (by omega)
    simp only [TrackerRequest.from_bytes, TrackerRequest.write_bytes, parse_request,
      List.append_assoc, hm, ha0, htr, option_bind_some]
    simp [CONNECT_ID_PROTOCOL_ID, CONNECT_ACTION_ID]
  | Announce req =>
    have hreqwf : req.WF := hbody
    cases hsip : req.source_ip with
    | V4 ip =>
      have hb := announce_v4_roundtrip req ip [] hsip hreqwf
      rw [List.append_nil] at hb
      simp only [TrackerRequest.from_bytes, TrackerRequest.write_bytes, parse_request,
        hsip, SourceIp.is_ipv4, if_true, List.append_assoc, hm, ha1, ht, hb,
        option_bind_some]
      simp [CONNECT_ID_PROTOCOL_ID, CONNECT_ACTION_ID, ANNOUNCE_IPV4_ACTION_ID,
        SCRAPE_ACTION_ID, ANNOUNCE_IPV6_ACTION_ID]
    | V6 ip =>
      have hb := announce_v6_roundtrip req ip [] hsip hreqwf
      rw [List.append_nil] at hb
      simp only [TrackerRequest.from_bytes, TrackerRequest.write_bytes, parse_request,
        hsip, SourceIp.is_ipv4, Bool.false_eq_true, if_false, List.append_assoc, hm, ha4,
        ht, hb, option_bind_some]
      simp [CONNECT_ID_PROTOCOL_ID, CONNECT_ACTION_ID, ANNOUNCE_IPV4_ACTION_ID,
        SCRAPE_ACTION_ID, ANNOUNCE_IPV6_ACTION_ID]
  | Scrape req =>
    have hreqwf : req.WF := hbody
    have hb := scrape_roundtrip req hreqwf
    simp only [TrackerRequest.from_bytes, TrackerRequest.write_bytes, parse_request,
      List.append_assoc, hm, ha2, ht, hb, option_bind_some]
    simp [CONNECT_ID_PROTOCOL_ID, CONNECT_ACTION_ID, ANNOUNCE_IPV4_ACTION_ID,
      SCRAPE_ACTION_ID, ANNOUNCE_IPV6_ACTION_ID]

/-- Claim C4 witness: a magic-id Connect request with transaction id 5
round-trips. -/
theorem tracker_request_roundtrip_witness :
    TrackerRequest.from_bytes
        (TrackerRequest.write_bytes ⟨CONNECT_ID_PROTOCOL_ID, 5, .Connect⟩) =
      some (⟨CONNECT_ID_PROTOCOL_ID, 5, .Connect⟩, []) :=
  tracker_request_roundtrip ⟨CONNECT_ID_PROTOCOL_ID, 5, .Connect⟩
    ⟨by decide, by decide, trivial⟩ (fun _ => rfl)

/-- Claim C10 witness: concrete runs for one file, two files and a
directory. -/
theorem build_info_mode_cases_witness :
    build_info_mode none [(5, [[97], [98]])] = some (.single 5 [97, 98]) ∧
      build_info_mode none [(5, [[97]]), (7, [[99]])] =
        some (.multi [] [(5, [[97]]), (7, [[99]])]) ∧
      build_info_mode (some [100]) [(5, [[97]])] =
        some (.multi [100] [(5, [[97]])]) :=
  ⟨(build_info_mode_cases [(5, [[97], [98]])]).1 5 [[97], [98]] rfl,
    (build_info_mode_cases [(5, [[97]]), (7, [[99]])]).2.1 (by decide),
    (build_info_mode_cases [(5, [[97]])]).2.2.1 [100]⟩

end BT
